import Mathlib

/-!
# Verification of `monitor_adoption.py`

A shallow embedding of the repository-discovery and workflow-detection
pipeline of `src/monitor_adoption.py`, together with theorems settling the
specification's claims about it.

The script's network interaction is modelled by explicit environments:
* the repository-listing API is a function `Endpoint → Nat → Resp` mapping an
  endpoint (`orgs/{org}/repos` or `users/{org}/repos`) and a page number to an
  HTTP response (status code plus the decoded JSON array of repository
  descriptors);
* the contents API used by `check_workflow` is a function
  `String → String → Nat` mapping a repository name and a file path to the
  HTTP status the contents endpoint returns.

The `while True` pagination loop of `list_js_repos` is embedded as a
fuel-indexed recursion; every theorem about it supplies enough fuel for the
scenario at hand.  Besides its result, the embedded enumerator returns the
trace of `(endpoint, page)` requests it issued, so claims about which
endpoints are queried can be stated directly.
-/

/-- A repository descriptor as consumed by `list_js_repos`: the `name` field
and the optional `language` field (`repo.get("language")` yields `None` when
the key is absent or null, modelled as `Option.none`). -/
structure Repo where
  name : String
  language : Option String
deriving DecidableEq, Repr

/-- An HTTP response of the repository-listing API: the status code and the
decoded JSON array of descriptors (meaningful when the status lets the code
reach `resp.json()`). -/
structure Resp where
  status : Nat
  data : List Repo
deriving DecidableEq, Repr

/-- The two repository-listing endpoints tried by `list_js_repos`, in order:
`orgs/{org}/repos` then `users/{org}/repos`. -/
inductive Endpoint where
  | orgs
  | users
deriving DecidableEq, Repr

/-- The language filter of `list_js_repos`, line 50:
`language in ["JavaScript", "TypeScript"]` — a case-sensitive exact match,
false for a `None` language. -/
def langMatch (l : Option String) : Bool :=
  l == some "JavaScript" || l == some "TypeScript"

/-- One page's contribution to `repos` (lines 48–51): the names of the
descriptors whose language passes `langMatch`, in API return order. -/
def filterNames (data : List Repo) : List String :=
  (data.filter (fun r => langMatch r.language)).map (fun r => r.name)

/-- Outcome of the inner `while True` loop of `list_js_repos` for one
endpoint. -/
inductive LoopOutcome where
  /-- An empty page: `return repos` — leaves the whole function. -/
  | returnRepos (repos : List String)
  /-- A 404: `break` — move on to the next endpoint, keeping `repos`. -/
  | nextEndpoint (repos : List String)
  /-- `resp.raise_for_status()` raised `requests.HTTPError` (the spec's
  `TransportError`) on this status code. -/
  | transportError (status : Nat)
  /-- The fuel bound was reached before the loop terminated. -/
  | fuelOut
deriving DecidableEq, Repr

/-- The inner `while True` loop of `list_js_repos` (lines 36–52) on one
endpoint, with explicit fuel.  Each iteration issues the request
`(ep, page)`, then, in source order: a 404 breaks to the next endpoint;
`raise_for_status()` raises on statuses 400–599; an empty body returns the
accumulated list; otherwise the matching names are appended and the next
page is fetched.  Returns the request trace and the loop outcome. -/
def loopPages (env : Endpoint → Nat → Resp) (ep : Endpoint) :
    Nat → List String → Nat → List (Endpoint × Nat) × LoopOutcome
  | 0, _, _ => ([], .fuelOut)
  | fuel + 1, acc, page =>
    let r := env ep page
    if r.status = 404 then
      ([(ep, page)], .nextEndpoint acc)
    else if 400 ≤ r.status ∧ r.status < 600 then
      ([(ep, page)], .transportError r.status)
    else if r.data = [] then
      ([(ep, page)], .returnRepos acc)
    else
      let rest := loopPages env ep fuel (acc ++ filterNames r.data) (page + 1)
      ((ep, page) :: rest.1, rest.2)

/-- Result of the whole enumerator. -/
inductive Outcome where
  /-- Normal return of the `repos` list. -/
  | done (repos : List String)
  /-- An uncaught `requests.HTTPError` aborted the enumeration. -/
  | transportError (status : Nat)
  /-- The fuel bound was reached. -/
  | fuelOut
deriving DecidableEq, Repr

/-- `list_js_repos` (lines 31–53): run the pagination loop on the `orgs`
endpoint starting at page 1 with `repos = []`; on a 404-break, run it again
on the `users` endpoint starting at page 1 with the list collected so far;
when the endpoint tuple is exhausted, `return repos` (line 53).  Returns the
full request trace and the outcome. -/
def list_js_repos (env : Endpoint → Nat → Resp) (fuel : Nat) :
    List (Endpoint × Nat) × Outcome :=
  match loopPages env .orgs fuel [] 1 with
  | (t1, .returnRepos rs) => (t1, .done rs)
  | (t1, .transportError s) => (t1, .transportError s)
  | (t1, .fuelOut) => (t1, .fuelOut)
  | (t1, .nextEndpoint acc) =>
    match loopPages env .users fuel acc 1 with
    | (t2, .returnRepos rs) => (t1 ++ t2, .done rs)
    | (t2, .nextEndpoint acc2) => (t1 ++ t2, .done acc2)
    | (t2, .transportError s) => (t1 ++ t2, .transportError s)
    | (t2, .fuelOut) => (t1 ++ t2, .fuelOut)

/-- The hardcoded path checked by `check_workflow` (line 57). -/
def workflowPath : String := ".github/workflows/deps-install.yml"

/-- `check_workflow` (lines 55–62): one GET on the contents endpoint for the
fixed `workflowPath`, then `return resp.status_code == 200`.  `contents`
maps a repository name and a path to the HTTP status the endpoint returns.
No status raises: the function is total in the received status. -/
def check_workflow (contents : String → String → Nat) (repo : String) : Bool :=
  contents repo workflowPath == 200

/-- Startup outcome of the module-level configuration block. -/
inductive Startup where
  /-- `sys.exit(1)` after the usage message (missing/empty account argument,
  lines 15–18). -/
  | usageExit
  /-- `sys.exit(1)` after the token error message (missing/empty
  `GITHUB_TOKEN`, lines 21–24). -/
  | tokenExit
  /-- Configuration accepted; the run proceeds with this org and token. -/
  | proceed (org token : String)
deriving DecidableEq, Repr

/-- The module-level configuration block (lines 14–24):
`ORG = sys.argv[1] if len(sys.argv) > 1 else None; if not ORG: exit(1)`,
then `TOKEN = os.getenv("GITHUB_TOKEN"); if not TOKEN: exit(1)`.
`if not x` is true for both `None` and the empty string. -/
def startup (argv : List String) (githubToken : Option String) : Startup :=
  match argv[1]? with
  | none => .usageExit
  | some o =>
    if o = "" then .usageExit
    else
      match githubToken with
      | none => .tokenExit
      | some t => if t = "" then .tokenExit else .proceed o t

/-- Result of a whole program run. -/
inductive RunResult where
  /-- Configuration rejected: the process exited with status 1 before any
  network request. -/
  | configExit
  /-- The report data: one `(name, present)` pair per enumerated repository,
  in enumeration order (`main`, lines 64–72). -/
  | report (results : List (String × Bool))
  /-- A transport error aborted the run. -/
  | aborted (status : Nat)
  /-- The fuel bound was reached. -/
  | fuelOut
deriving DecidableEq, Repr

/-- The whole script: the configuration block, then `main` (lines 64–72).
Returns the listing-request trace, the list of repository names sent to the
contents endpoint (one `check_workflow` call each), and the run result. -/
def runProgram (argv : List String) (githubToken : Option String)
    (env : Endpoint → Nat → Resp) (contents : String → String → Nat)
    (fuel : Nat) : (List (Endpoint × Nat) × List String) × RunResult :=
  match startup argv githubToken with
  | .usageExit => (([], []), .configExit)
  | .tokenExit => (([], []), .configExit)
  | .proceed _ _ =>
    match list_js_repos env fuel with
    | (t, .done repos) =>
      ((t, repos), .report (repos.map (fun n => (n, check_workflow contents n))))
    | (t, .transportError s) => ((t, []), .aborted s)
    | (t, .fuelOut) => ((t, []), .fuelOut)

/-- Names carried by a loop outcome that returns a list. -/
def outcomeNames : LoopOutcome → List String
  | .returnRepos rs => rs
  | .nextEndpoint rs => rs
  | .transportError _ => []
  | .fuelOut => []

/-- Line 42–43: a 404 response makes the loop issue exactly one request and
break to the next endpoint, keeping the accumulated names. -/
lemma loopPages_succ_404 (env : Endpoint → Nat → Resp) (ep : Endpoint)
    (fuel : Nat) (acc : List String) (page : Nat)
    (h : (env ep page).status = 404) :
    loopPages env ep (fuel + 1) acc page = ([(ep, page)], .nextEndpoint acc) := by
  simp [loopPages, h]

/-- Line 44: a status in 400–599 other than 404 makes `raise_for_status()`
raise after exactly one request, aborting with that status. -/
lemma loopPages_succ_err (env : Endpoint → Nat → Resp) (ep : Endpoint)
    (fuel : Nat) (acc : List String) (page : Nat)
    (h404 : (env ep page).status ≠ 404)
    (h400 : 400 ≤ (env ep page).status) (h600 : (env ep page).status < 600) :
    loopPages env ep (fuel + 1) acc page =
      ([(ep, page)], .transportError (env ep page).status) := by
  simp [loopPages, h404, h400, h600]

/-- Lines 46–47: an empty page (on a status that neither breaks nor raises)
makes the loop return the accumulated names after exactly one request. -/
lemma loopPages_succ_empty (env : Endpoint → Nat → Resp) (ep : Endpoint)
    (fuel : Nat) (acc : List String) (page : Nat)
    (h404 : (env ep page).status ≠ 404)
    (herr : ¬ (400 ≤ (env ep page).status ∧ (env ep page).status < 600))
    (hdata : (env ep page).data = []) :
    loopPages env ep (fuel + 1) acc page = ([(ep, page)], .returnRepos acc) := by
  simp [loopPages, h404, herr, hdata]

/-- Lines 48–52 for a 200 page: a non-empty 200 page appends its matching
names and continues with the next page number. -/
lemma loopPages_succ_ok (env : Endpoint → Nat → Resp) (ep : Endpoint)
    (fuel : Nat) (acc : List String) (page : Nat) (d : List Repo)
    (h : env ep page = ⟨200, d⟩) (hd : d ≠ []) :
    loopPages env ep (fuel + 1) acc page =
      ((ep, page) :: (loopPages env ep fuel (acc ++ filterNames d) (page + 1)).1,
       (loopPages env ep fuel (acc ++ filterNames d) (page + 1)).2) := by
  simp [loopPages, h, hd]

/-- With positive fuel the loop always issues the request for its starting
page. -/
lemma self_mem_trace (env : Endpoint → Nat → Resp) (ep : Endpoint)
    (fuel : Nat) (acc : List String) (page : Nat) :
    (ep, page) ∈ (loopPages env ep (fuel + 1) acc page).1 := by
  simp only [loopPages]
  split_ifs <;> simp

/-- Consuming a block of non-empty 200 pages: the loop issues one request
per page, appends each page's matching names in order, and continues at the
first page after the block with the remaining fuel. -/
lemma loopPages_consume (env : Endpoint → Nat → Resp) (ep : Endpoint) :
    ∀ (ps : List (List Repo)) (acc : List String) (page fuel : Nat),
    (∀ i, i < ps.length → env ep (page + i) = ⟨200, ps.getD i []⟩) →
    (∀ l, l ∈ ps → l ≠ []) →
    loopPages env ep (ps.length + fuel) acc page =
      ((List.range ps.length).map (fun i => (ep, page + i)) ++
        (loopPages env ep fuel (acc ++ (ps.map filterNames).flatten) (page + ps.length)).1,
       (loopPages env ep fuel (acc ++ (ps.map filterNames).flatten) (page + ps.length)).2) := by
  intro ps
  induction ps with
  | nil =>
    intro acc page fuel _ _
    simp
  | cons d tl ih =>
    intro acc page fuel hpages hne
    have h0 : env ep page = ⟨200, d⟩ := by simpa using hpages 0 (by simp)
    have hd : d ≠ [] := hne d (by simp)
    have hlen : (d :: tl).length + fuel = (tl.length + fuel) + 1 := by
      simp [List.length_cons]; omega
    rw [hlen, loopPages_succ_ok env ep _ acc page d h0 hd]
    have hpages' : ∀ i, i < tl.length → env ep (page + 1 + i) = ⟨200, tl.getD i []⟩ := by
      intro i hi
      have h := hpages (i + 1) (by simp; omega)
      rw [show page + (i + 1) = page + 1 + i by omega] at h
      simpa using h
    have hne' : ∀ l, l ∈ tl → l ≠ [] := fun l hl => hne l (List.mem_cons_of_mem _ hl)
    rw [ih (acc ++ filterNames d) (page + 1) fuel hpages' hne']
    have hacc : acc ++ filterNames d ++ (tl.map filterNames).flatten =
        acc ++ ((d :: tl).map filterNames).flatten := by
      simp
    have hpage : page + 1 + tl.length = page + (d :: tl).length := by
      simp [List.length_cons]; omega
    rw [hacc, hpage]
    have htr : (List.range (d :: tl).length).map (fun i => (ep, page + i)) =
        (ep, page) :: (List.range tl.length).map (fun i => (ep, page + 1 + i)) := by
      rw [List.length_cons, List.range_succ_eq_map, List.map_cons, List.map_map]
      simp only [Nat.add_zero]
      congr 1
      apply List.map_congr_left
      intro i _
      simp only [Function.comp_apply]
      congr 1
      omega
    rw [htr]
    rfl

/-- Lines 48–52 in general: any response that neither breaks (404) nor
raises (400–599) and has non-empty data appends its matching names and
continues with the next page number. -/
lemma loopPages_succ_next (env : Endpoint → Nat → Resp) (ep : Endpoint)
    (fuel : Nat) (acc : List String) (page : Nat)
    (h404 : (env ep page).status ≠ 404)
    (herr : ¬ (400 ≤ (env ep page).status ∧ (env ep page).status < 600))
    (hdata : (env ep page).data ≠ []) :
    loopPages env ep (fuel + 1) acc page =
      ((ep, page) ::
         (loopPages env ep fuel (acc ++ filterNames (env ep page).data) (page + 1)).1,
       (loopPages env ep fuel (acc ++ filterNames (env ep page).data) (page + 1)).2) := by
  simp [loopPages, h404, herr, hdata]

/-- Invariant of the pagination loop: every name in a returned list was
already in the accumulator or is the name of a descriptor, returned by the
active endpoint on some page, whose language passes the filter. -/
lemma mem_outcomeNames (env : Endpoint → Nat → Resp) (ep : Endpoint) :
    ∀ (fuel : Nat) (acc : List String) (page : Nat) (n : String),
    n ∈ outcomeNames (loopPages env ep fuel acc page).2 →
    n ∈ acc ∨ ∃ p r, r ∈ (env ep p).data ∧ langMatch r.language = true ∧ r.name = n := by
  intro fuel
  induction fuel with
  | zero =>
    intro acc page n h
    simp [loopPages, outcomeNames] at h
  | succ fuel ih =>
    intro acc page n h
    by_cases h404 : (env ep page).status = 404
    · rw [loopPages_succ_404 env ep fuel acc page h404] at h
      exact Or.inl h
    · by_cases herr : 400 ≤ (env ep page).status ∧ (env ep page).status < 600
      · rw [loopPages_succ_err env ep fuel acc page h404 herr.1 herr.2] at h
        simp [outcomeNames] at h
      · by_cases hdata : (env ep page).data = []
        · rw [loopPages_succ_empty env ep fuel acc page h404 herr hdata] at h
          exact Or.inl h
        · rw [loopPages_succ_next env ep fuel acc page h404 herr hdata] at h
          have h' : n ∈ outcomeNames
              (loopPages env ep fuel (acc ++ filterNames (env ep page).data) (page + 1)).2 := h
          rcases ih _ _ n h' with hacc | hex
          · rcases List.mem_append.mp hacc with h1 | h2
            · exact Or.inl h1
            · right
              simp only [filterNames, List.mem_map, List.mem_filter] at h2
              obtain ⟨r, ⟨hr, hl⟩, hn⟩ := h2
              exact ⟨page, r, hr, hl, hn⟩
          · exact Or.inr hex

/-- C1: for every account for which the organization repositories endpoint
returns N non-empty pages of descriptors followed by an empty page (all with
status 200), `list_js_repos` returns exactly the concatenation, in API
return order, of the names of those pages' descriptors whose language is
JavaScript or TypeScript, and it never issues a request to the user
repositories endpoint. -/
theorem org_enumeration_exact (env : Endpoint → Nat → Resp)
    (ps : List (List Repo)) (fuel : Nat)
    (hpages : ∀ i, i < ps.length → env .orgs (1 + i) = ⟨200, ps.getD i []⟩)
    (hne : ∀ l, l ∈ ps → l ≠ [])
    (hterm : env .orgs (1 + ps.length) = ⟨200, []⟩) :
    (list_js_repos env (ps.length + (fuel + 1))).2 =
        .done ((ps.map filterNames).flatten) ∧
    ∀ p, (Endpoint.users, p) ∉ (list_js_repos env (ps.length + (fuel + 1))).1 := by
  have hcons := loopPages_consume env .orgs ps [] 1 (fuel + 1) hpages hne
  have h404 : (env .orgs (1 + ps.length)).status ≠ 404 := by rw [hterm]; decide
  have herr : ¬ (400 ≤ (env .orgs (1 + ps.length)).status ∧
      (env .orgs (1 + ps.length)).status < 600) := by rw [hterm]; decide
  have hdata : (env .orgs (1 + ps.length)).data = [] := by rw [hterm]
  have hstep := loopPages_succ_empty env .orgs fuel
    ([] ++ (ps.map filterNames).flatten) (1 + ps.length) h404 herr hdata
  have hx : list_js_repos env (ps.length + (fuel + 1)) =
      ((List.range ps.length).map (fun i => (Endpoint.orgs, 1 + i)) ++
          [(Endpoint.orgs, 1 + ps.length)],
       .done ((ps.map filterNames).flatten)) := by
    unfold list_js_repos
    rw [hcons, hstep]
    simp
  constructor
  · rw [hx]
  · intro p hp
    rw [hx] at hp
    simp at hp

/-- C5: when both the organization endpoint and the user endpoint return
404, `list_js_repos` returns the empty list normally (no error). -/
theorem both_endpoints_404 (env : Endpoint → Nat → Resp) (fuel : Nat)
    (h1 : (env .orgs 1).status = 404) (h2 : (env .users 1).status = 404) :
    (list_js_repos env (fuel + 1)).2 = .done [] := by
  have ho := loopPages_succ_404 env .orgs fuel [] 1 h1
  have hu := loopPages_succ_404 env .users fuel [] 1 h2
  simp [list_js_repos, ho, hu]

/-- C4: when the organization endpoint returns 404 on its first page,
`list_js_repos` queries the user repositories endpoint for the same
identifier and returns that endpoint's matching-language repository
names. -/
theorem user_fallback_enumeration (env : Endpoint → Nat → Resp)
    (qs : List (List Repo)) (fuel : Nat)
    (h404 : (env .orgs 1).status = 404)
    (hpages : ∀ i, i < qs.length → env .users (1 + i) = ⟨200, qs.getD i []⟩)
    (hne : ∀ l, l ∈ qs → l ≠ [])
    (hterm : env .users (1 + qs.length) = ⟨200, []⟩) :
    (list_js_repos env (qs.length + (fuel + 1))).2 =
        .done ((qs.map filterNames).flatten) ∧
    (Endpoint.users, 1) ∈ (list_js_repos env (qs.length + (fuel + 1))).1 := by
  have ho := loopPages_succ_404 env .orgs (qs.length + fuel) [] 1 h404
  have hcons := loopPages_consume env .users qs [] 1 (fuel + 1) hpages hne
  have hu404 : (env .users (1 + qs.length)).status ≠ 404 := by rw [hterm]; decide
  have huerr : ¬ (400 ≤ (env .users (1 + qs.length)).status ∧
      (env .users (1 + qs.length)).status < 600) := by rw [hterm]; decide
  have hudata : (env .users (1 + qs.length)).data = [] := by rw [hterm]
  have hstep := loopPages_succ_empty env .users fuel
    ([] ++ (qs.map filterNames).flatten) (1 + qs.length) hu404 huerr hudata
  have hfuel : qs.length + (fuel + 1) = qs.length + fuel + 1 := rfl
  rw [hfuel] at hcons
  simp only [List.nil_append] at hcons hstep
  have hx : list_js_repos env (qs.length + (fuel + 1)) =
      ((Endpoint.orgs, 1) ::
         ((List.range qs.length).map (fun i => (Endpoint.users, 1 + i)) ++
           [(Endpoint.users, 1 + qs.length)]),
       .done ((qs.map filterNames).flatten)) := by
    rw [hfuel]
    simp [list_js_repos, ho, hcons, hstep]
  constructor
  · rw [hx]
  · rw [hx]
    rcases Nat.eq_zero_or_pos qs.length with h0 | h0
    · simp [h0]
    · have hm : (Endpoint.users, 1) ∈
          (List.range qs.length).map (fun i => (Endpoint.users, 1 + i)) :=
        List.mem_map.mpr ⟨0, List.mem_range.mpr h0, rfl⟩
      simp only [List.mem_cons, List.mem_append]
      exact Or.inr (Or.inl hm)

/-- C10: if the organization endpoint returns one or more non-empty 200
pages and then 404 on a later page, `list_js_repos` does not stop: it keeps
the names already collected, queries the user endpoint starting again at
page 1, and the returned sequence concatenates items from both
endpoints. -/
theorem org_404_midway_continues (env : Endpoint → Nat → Resp)
    (ps qs : List (List Repo)) (fuel : Nat)
    (_hps : ps ≠ [])
    (horg : ∀ i, i < ps.length → env .orgs (1 + i) = ⟨200, ps.getD i []⟩)
    (horgne : ∀ l, l ∈ ps → l ≠ [])
    (h404 : (env .orgs (1 + ps.length)).status = 404)
    (huser : ∀ i, i < qs.length → env .users (1 + i) = ⟨200, qs.getD i []⟩)
    (huserne : ∀ l, l ∈ qs → l ≠ [])
    (huterm : env .users (1 + qs.length) = ⟨200, []⟩) :
    (list_js_repos env (ps.length + (qs.length + (fuel + 1)))).2 =
        .done ((ps.map filterNames).flatten ++ (qs.map filterNames).flatten) ∧
    (Endpoint.users, 1) ∈ (list_js_repos env (ps.length + (qs.length + (fuel + 1)))).1 := by
  have hconsO := loopPages_consume env .orgs ps [] 1 (qs.length + (fuel + 1)) horg horgne
  have hstepO := loopPages_succ_404 env .orgs (qs.length + fuel)
    ([] ++ (ps.map filterNames).flatten) (1 + ps.length) h404
  have e1 : qs.length + fuel + 1 = qs.length + (fuel + 1) := rfl
  rw [e1] at hstepO
  have hconsU := loopPages_consume env .users qs ((ps.map filterNames).flatten) 1
    (ps.length + (fuel + 1)) huser huserne
  have e2 : qs.length + (ps.length + (fuel + 1)) = ps.length + (qs.length + (fuel + 1)) := by
    omega
  rw [e2] at hconsU
  have hu404 : (env .users (1 + qs.length)).status ≠ 404 := by rw [huterm]; decide
  have huerr : ¬ (400 ≤ (env .users (1 + qs.length)).status ∧
      (env .users (1 + qs.length)).status < 600) := by rw [huterm]; decide
  have hudata : (env .users (1 + qs.length)).data = [] := by rw [huterm]
  have hstepU := loopPages_succ_empty env .users (ps.length + fuel)
    ((ps.map filterNames).flatten ++ (qs.map filterNames).flatten) (1 + qs.length)
    hu404 huerr hudata
  have e3 : ps.length + fuel + 1 = ps.length + (fuel + 1) := rfl
  rw [e3] at hstepU
  simp only [List.nil_append] at hconsO hstepO
  have hx : list_js_repos env (ps.length + (qs.length + (fuel + 1))) =
      (((List.range ps.length).map (fun i => (Endpoint.orgs, 1 + i)) ++
          [(Endpoint.orgs, 1 + ps.length)]) ++
        ((List.range qs.length).map (fun i => (Endpoint.users, 1 + i)) ++
          [(Endpoint.users, 1 + qs.length)]),
       .done ((ps.map filterNames).flatten ++ (qs.map filterNames).flatten)) := by
    simp [list_js_repos, hconsO, hstepO, hconsU, hstepU]
  constructor
  · rw [hx]
  · rw [hx]
    rcases Nat.eq_zero_or_pos qs.length with h0 | h0
    · simp [h0]
    · have hm : (Endpoint.users, 1) ∈
          (List.range qs.length).map (fun i => (Endpoint.users, 1 + i)) :=
        List.mem_map.mpr ⟨0, List.mem_range.mpr h0, rfl⟩
      simp only [List.mem_append]
      exact Or.inr (Or.inl hm)

/-- C6: every name in the output of `list_js_repos` is the name of a
descriptor, returned by a queried endpoint on some page, whose language is
exactly the case-sensitive string JavaScript or TypeScript; hence a
descriptor with any other language (including an absent one) never
contributes its name to the output. -/
theorem enumerator_names_only_matching (env : Endpoint → Nat → Resp)
    (fuel : Nat) (rs : List String) (n : String)
    (hdone : (list_js_repos env fuel).2 = Outcome.done rs) (hn : n ∈ rs) :
    ∃ ep p r, r ∈ (env ep p).data ∧ langMatch r.language = true ∧ r.name = n := by
  have horg : ∀ m, m ∈ outcomeNames (loopPages env .orgs fuel [] 1).2 →
      ∃ ep p r, r ∈ (env ep p).data ∧ langMatch r.language = true ∧ r.name = m := by
    intro m hm
    rcases mem_outcomeNames env .orgs fuel [] 1 m hm with h | ⟨p, r, hr, hl, hname⟩
    · simp at h
    · exact ⟨.orgs, p, r, hr, hl, hname⟩
  unfold list_js_repos at hdone
  rcases h1 : loopPages env .orgs fuel [] 1 with ⟨t1, o1⟩
  rw [h1] at hdone
  cases o1 with
  | returnRepos rs1 =>
    simp only [Outcome.done.injEq] at hdone
    subst hdone
    exact horg n (by rw [h1]; exact hn)
  | transportError s => simp at hdone
  | fuelOut => simp at hdone
  | nextEndpoint acc =>
    have huser : ∀ m, m ∈ outcomeNames (loopPages env .users fuel acc 1).2 →
        ∃ ep p r, r ∈ (env ep p).data ∧ langMatch r.language = true ∧ r.name = m := by
      intro m hm
      rcases mem_outcomeNames env .users fuel acc 1 m hm with h | ⟨p, r, hr, hl, hname⟩
      · exact horg m (by rw [h1]; exact h)
      · exact ⟨.users, p, r, hr, hl, hname⟩
    dsimp only at hdone
    rcases h2 : loopPages env .users fuel acc 1 with ⟨t2, o2⟩
    rw [h2] at hdone
    cases o2 with
    | returnRepos rs2 =>
      simp only [Outcome.done.injEq] at hdone
      subst hdone
      exact huser n (by rw [h2]; exact hn)
    | nextEndpoint acc2 =>
      simp only [Outcome.done.injEq] at hdone
      subst hdone
      exact huser n (by rw [h2]; exact hn)
    | transportError s => simp at hdone
    | fuelOut => simp at hdone

/-- C7: a page of exactly 100 items triggers a request for the next page,
and any non-empty page (in particular one of fewer than 100 items) also
does; the loop stops issuing requests for the active endpoint exactly when
a page returns empty content, never because of page size. -/
theorem pagination_stops_only_on_empty (env : Endpoint → Nat → Resp) (ep : Endpoint)
    (acc : List String) (page fuel : Nat) (data : List Repo)
    (h : env ep page = ⟨200, data⟩) :
    (data.length = 100 → (ep, page + 1) ∈ (loopPages env ep (fuel + 1 + 1) acc page).1) ∧
    (0 < data.length → (ep, page + 1) ∈ (loopPages env ep (fuel + 1 + 1) acc page).1) ∧
    (data = [] → loopPages env ep (fuel + 1) acc page = ([(ep, page)], .returnRepos acc)) := by
  have hgen : data ≠ [] → (ep, page + 1) ∈ (loopPages env ep (fuel + 1 + 1) acc page).1 := by
    intro hne
    rw [loopPages_succ_ok env ep (fuel + 1) acc page data h hne]
    exact List.mem_cons_of_mem _ (self_mem_trace env ep fuel _ (page + 1))
  refine ⟨fun h100 => hgen ?_, fun hpos => hgen ?_, fun hempty => ?_⟩
  · intro hnil; rw [hnil] at h100; simp at h100
  · intro hnil; rw [hnil] at hpos; simp at hpos
  · have hst : (env ep page).status = 200 := by rw [h]
    apply loopPages_succ_empty
    · rw [hst]; decide
    · rw [hst]; decide
    · rw [h]; exact hempty

/-- C2 counterexample: the status 201 is in the 200 class, yet
`check_workflow` returns `false` on it — the code compares the status with
the single value 200, not with the 2xx class. -/
theorem checker_2xx_claim_false :
    (200 ≤ 201 ∧ 201 < 300) ∧ check_workflow (fun _ _ => 201) "r" = false := by
  constructor
  · decide
  · decide

/-- C2 (amended): `check_workflow` returns `true` exactly when the contents
endpoint answers with status 200; every other status (including other 2xx
codes, 404 and 403) yields `false`, and no received status raises. -/
theorem checker_true_iff_200 (contents : String → String → Nat) (repo : String) :
    check_workflow contents repo = true ↔ contents repo workflowPath = 200 := by
  simp [check_workflow]

/-- C3 counterexample: statuses outside {200, 404} do not always raise —
`check_workflow` maps 403 and 500 to the normal boolean `false` (it never
raises on a received status), and the enumerator processes a 299 response
with an empty JSON body as a normal end of data. -/
theorem unhandled_status_claim_false :
    check_workflow (fun _ _ => 403) "r" = false ∧
    check_workflow (fun _ _ => 500) "r" = false ∧
    (list_js_repos (fun _ _ => ⟨299, []⟩) 2).2 = .done [] := by
  refine ⟨by decide, by decide, by decide⟩

/-- C3 (amended): in `list_js_repos`, a response whose status is in 400–599
and is not 404 raises `TransportError` (`requests.HTTPError`), which
propagates uncaught and aborts the enumeration, wherever it is received: at
any page of the organization endpoint (first conjunct: after any block of
non-empty 200 pages) and at any page of the user endpoint reached through
the 404 fallback (second conjunct); `check_workflow` never raises on a
received status and maps every non-200 status to `false` (third
conjunct). -/
theorem transport_error_amended :
    (∀ (env : Endpoint → Nat → Resp) (ps : List (List Repo)) (fuel s : Nat),
        (∀ i, i < ps.length → env .orgs (1 + i) = ⟨200, ps.getD i []⟩) →
        (∀ l, l ∈ ps → l ≠ []) →
        400 ≤ s → s < 600 → s ≠ 404 →
        (env .orgs (1 + ps.length)).status = s →
        (list_js_repos env (ps.length + (fuel + 1))).2 = .transportError s) ∧
    (∀ (env : Endpoint → Nat → Resp) (ps qs : List (List Repo)) (fuel s : Nat),
        (∀ i, i < ps.length → env .orgs (1 + i) = ⟨200, ps.getD i []⟩) →
        (∀ l, l ∈ ps → l ≠ []) →
        (env .orgs (1 + ps.length)).status = 404 →
        (∀ i, i < qs.length → env .users (1 + i) = ⟨200, qs.getD i []⟩) →
        (∀ l, l ∈ qs → l ≠ []) →
        400 ≤ s → s < 600 → s ≠ 404 →
        (env .users (1 + qs.length)).status = s →
        (list_js_repos env (ps.length + (qs.length + (fuel + 1)))).2 =
          .transportError s) ∧
    (∀ (contents : String → String → Nat) (repo : String),
        contents repo workflowPath ≠ 200 → check_workflow contents repo = false) := by
  refine ⟨?_, ?_, ?_⟩
  · intro env ps fuel s hpages hne h400 h600 h404 hs
    have hcons := loopPages_consume env .orgs ps [] 1 (fuel + 1) hpages hne
    have hs404 : (env .orgs (1 + ps.length)).status ≠ 404 := by rw [hs]; exact h404
    have hstep := loopPages_succ_err env .orgs fuel ([] ++ (ps.map filterNames).flatten)
      (1 + ps.length) hs404 (by rw [hs]; exact h400) (by rw [hs]; exact h600)
    rw [hs] at hstep
    simp only [List.nil_append] at hcons hstep
    simp [list_js_repos, hcons, hstep]
  · intro env ps qs fuel s hporg hpne h404 huser hune h400 h600 hu404 hs
    have hconsO := loopPages_consume env .orgs ps [] 1 (qs.length + (fuel + 1)) hporg hpne
    have hstepO := loopPages_succ_404 env .orgs (qs.length + fuel)
      ([] ++ (ps.map filterNames).flatten) (1 + ps.length) h404
    have e1 : qs.length + fuel + 1 = qs.length + (fuel + 1) := rfl
    rw [e1] at hstepO
    have hconsU := loopPages_consume env .users qs ((ps.map filterNames).flatten) 1
      (ps.length + (fuel + 1)) huser hune
    have e2 : qs.length + (ps.length + (fuel + 1)) =
        ps.length + (qs.length + (fuel + 1)) := by omega
    rw [e2] at hconsU
    have hus404 : (env .users (1 + qs.length)).status ≠ 404 := by rw [hs]; exact hu404
    have hstepU := loopPages_succ_err env .users (ps.length + fuel)
      ((ps.map filterNames).flatten ++ (qs.map filterNames).flatten) (1 + qs.length)
      hus404 (by rw [hs]; exact h400) (by rw [hs]; exact h600)
    have e3 : ps.length + fuel + 1 = ps.length + (fuel + 1) := rfl
    rw [e3] at hstepU
    rw [hs] at hstepU
    simp only [List.nil_append] at hconsO hstepO
    simp [list_js_repos, hconsO, hstepO, hconsU, hstepU]
  · intro contents repo h
    simpa [check_workflow] using h

/-- C8: two invocations of `check_workflow` against an unchanged remote
state (the contents endpoint returns the same status both times) yield the
same boolean. -/
theorem checker_idempotent (c1 c2 : String → String → Nat) (repo : String)
    (h : c1 repo workflowPath = c2 repo workflowPath) :
    check_workflow c1 repo = check_workflow c2 repo := by
  simp [check_workflow, h]

/-- C9: if the account-identifier argument is missing or the
`GITHUB_TOKEN` environment variable is missing, the program exits (with the
error reported) before issuing any network request: the request traces are
empty. -/
theorem config_error_exits_before_network (argv : List String)
    (githubToken : Option String) (env : Endpoint → Nat → Resp)
    (contents : String → String → Nat) (fuel : Nat)
    (h : argv[1]? = none ∨ githubToken = none) :
    runProgram argv githubToken env contents fuel = (([], []), .configExit) := by
  rcases h with h | h
  · simp [runProgram, startup, h]
  · rcases ha : argv[1]? with _ | o
    · simp [runProgram, startup, ha]
    · by_cases ho : o = ""
      · simp [runProgram, startup, ha, ho]
      · simp [runProgram, startup, ha, ho, h]

/-- C1 witness: two org pages (languages JavaScript/Python, then
TypeScript) followed by an empty page. -/
theorem org_enumeration_exact_witness :
    (list_js_repos
        (fun ep p => match ep, p with
          | Endpoint.orgs, 1 => ⟨200, [⟨"a", some "JavaScript"⟩, ⟨"b", some "Python"⟩]⟩
          | Endpoint.orgs, 2 => ⟨200, [⟨"c", some "TypeScript"⟩]⟩
          | _, _ => ⟨200, []⟩) 3).2 =
      .done ((([[⟨"a", some "JavaScript"⟩, ⟨"b", some "Python"⟩],
                [⟨"c", some "TypeScript"⟩]] : List (List Repo)).map filterNames).flatten) ∧
    ∀ p, (Endpoint.users, p) ∉
      (list_js_repos
        (fun ep p => match ep, p with
          | Endpoint.orgs, 1 => ⟨200, [⟨"a", some "JavaScript"⟩, ⟨"b", some "Python"⟩]⟩
          | Endpoint.orgs, 2 => ⟨200, [⟨"c", some "TypeScript"⟩]⟩
          | _, _ => ⟨200, []⟩) 3).1 := by
  exact org_enumeration_exact _
    [[⟨"a", some "JavaScript"⟩, ⟨"b", some "Python"⟩], [⟨"c", some "TypeScript"⟩]] 0
    (by decide) (by decide) (by decide)

/-- C4 witness: org endpoint 404, user endpoint with one page containing a
TypeScript repository and one non-matching repository. -/
theorem user_fallback_enumeration_witness :
    (list_js_repos
        (fun ep p => match ep, p with
          | Endpoint.orgs, _ => ⟨404, []⟩
          | Endpoint.users, 1 => ⟨200, [⟨"z", some "TypeScript"⟩, ⟨"w", some "Go"⟩]⟩
          | Endpoint.users, _ => ⟨200, []⟩) 2).2 =
      .done ((([[⟨"z", some "TypeScript"⟩, ⟨"w", some "Go"⟩]] :
          List (List Repo)).map filterNames).flatten) ∧
    (Endpoint.users, 1) ∈
      (list_js_repos
        (fun ep p => match ep, p with
          | Endpoint.orgs, _ => ⟨404, []⟩
          | Endpoint.users, 1 => ⟨200, [⟨"z", some "TypeScript"⟩, ⟨"w", some "Go"⟩]⟩
          | Endpoint.users, _ => ⟨200, []⟩) 2).1 := by
  exact user_fallback_enumeration _ [[⟨"z", some "TypeScript"⟩, ⟨"w", some "Go"⟩]] 0
    (by decide) (by decide) (by decide) (by decide)

/-- C5 witness: an environment answering 404 everywhere. -/
theorem both_endpoints_404_witness :
    (list_js_repos (fun _ _ => ⟨404, []⟩) 1).2 = .done [] :=
  both_endpoints_404 (fun _ _ => ⟨404, []⟩) 0 rfl rfl

/-- C10 witness: one org page with a JavaScript repository, 404 on org page
2, then one user page with a TypeScript repository. -/
theorem org_404_midway_continues_witness :
    (list_js_repos
        (fun ep p => match ep, p with
          | Endpoint.orgs, 1 => ⟨200, [⟨"a", some "JavaScript"⟩]⟩
          | Endpoint.orgs, _ => ⟨404, []⟩
          | Endpoint.users, 1 => ⟨200, [⟨"z", some "TypeScript"⟩]⟩
          | Endpoint.users, _ => ⟨200, []⟩) 3).2 =
      .done ((([[⟨"a", some "JavaScript"⟩]] : List (List Repo)).map filterNames).flatten ++
             (([[⟨"z", some "TypeScript"⟩]] : List (List Repo)).map filterNames).flatten) ∧
    (Endpoint.users, 1) ∈
      (list_js_repos
        (fun ep p => match ep, p with
          | Endpoint.orgs, 1 => ⟨200, [⟨"a", some "JavaScript"⟩]⟩
          | Endpoint.orgs, _ => ⟨404, []⟩
          | Endpoint.users, 1 => ⟨200, [⟨"z", some "TypeScript"⟩]⟩
          | Endpoint.users, _ => ⟨200, []⟩) 3).1 := by
  exact org_404_midway_continues _ [[⟨"a", some "JavaScript"⟩]] [[⟨"z", some "TypeScript"⟩]] 0
    (by decide) (by decide) (by decide) (by decide) (by decide) (by decide) (by decide)

/-- C6 witness: an environment with a single JavaScript repository. -/
theorem enumerator_names_only_matching_witness :
    ∃ ep p r, r ∈ ((fun (_ : Endpoint) (pg : Nat) =>
        if pg = 1 then (⟨200, [⟨"a", some "JavaScript"⟩]⟩ : Resp) else ⟨200, []⟩) ep p).data ∧
      langMatch r.language = true ∧ r.name = "a" := by
  exact enumerator_names_only_matching _ 2 ["a"] "a" (by decide) (by decide)

/-- C7 witness: a page of exactly 100 JavaScript repositories triggers the
request for page 2. -/
theorem pagination_stops_only_on_empty_witness :
    (Endpoint.orgs, 2) ∈
      (loopPages
        (fun _ p => if p = 1 then
            (⟨200, List.replicate 100 ⟨"r", some "JavaScript"⟩⟩ : Resp)
          else ⟨200, []⟩)
        Endpoint.orgs 2 [] 1).1 := by
  exact (pagination_stops_only_on_empty _ Endpoint.orgs [] 1 0
      (List.replicate 100 ⟨"r", some "JavaScript"⟩) rfl).1 (by decide)

/-- C3 witness: a 500 on org page 2 (after a non-empty org page) aborts the
enumeration; a 403 on user page 2 (after an org page, an org 404 and a
non-empty user page) aborts it too; a 403 on the contents endpoint yields
`false`. -/
theorem transport_error_amended_witness :
    (list_js_repos
        (fun ep p => match ep, p with
          | Endpoint.orgs, 1 => ⟨200, [⟨"a", some "JavaScript"⟩]⟩
          | _, _ => ⟨500, []⟩) 2).2 = .transportError 500 ∧
    (list_js_repos
        (fun ep p => match ep, p with
          | Endpoint.orgs, 1 => ⟨200, [⟨"a", some "JavaScript"⟩]⟩
          | Endpoint.orgs, _ => ⟨404, []⟩
          | Endpoint.users, 1 => ⟨200, [⟨"z", some "TypeScript"⟩]⟩
          | Endpoint.users, _ => ⟨403, []⟩) 3).2 = .transportError 403 ∧
    check_workflow (fun _ _ => 403) "w" = false :=
  ⟨transport_error_amended.1
      (fun ep p => match ep, p with
        | Endpoint.orgs, 1 => ⟨200, [⟨"a", some "JavaScript"⟩]⟩
        | _, _ => ⟨500, []⟩)
      [[⟨"a", some "JavaScript"⟩]] 0 500
      (by decide) (by decide) (by decide) (by decide) (by decide) (by decide),
   transport_error_amended.2.1
      (fun ep p => match ep, p with
        | Endpoint.orgs, 1 => ⟨200, [⟨"a", some "JavaScript"⟩]⟩
        | Endpoint.orgs, _ => ⟨404, []⟩
        | Endpoint.users, 1 => ⟨200, [⟨"z", some "TypeScript"⟩]⟩
        | Endpoint.users, _ => ⟨403, []⟩)
      [[⟨"a", some "JavaScript"⟩]] [[⟨"z", some "TypeScript"⟩]] 0 403
      (by decide) (by decide) (by decide) (by decide) (by decide) (by decide)
      (by decide) (by decide) (by decide),
   transport_error_amended.2.2 (fun _ _ => 403) "w" (by decide)⟩

/-- C8 witness: two runs against the same 200-answering endpoint. -/
theorem checker_idempotent_witness :
    check_workflow (fun _ _ => 200) "a" = check_workflow (fun _ _ => 200) "a" :=
  checker_idempotent (fun _ _ => 200) (fun _ _ => 200) "a" rfl

/-- C9 witness: an argv without an account argument. -/
theorem config_error_exits_before_network_witness :
    runProgram ["monitor_adoption.py"] none (fun _ _ => ⟨200, []⟩) (fun _ _ => 200) 5 =
      (([], []), .configExit) :=
  config_error_exits_before_network _ _ _ _ 5 (Or.inl rfl)
